import Mathlib

/-!
Verification development for the ytmdl metadata aggregation and ranking
pipeline (`ytmdl/metadata.py`).

The source file `metadata.py` is embedded shallowly below: pure Python string
manipulation becomes Lean functions on `String`/`List String`, float scores
become exact rationals (`ℚ`), Python exceptions become `Except`, and the
provider adapters (network calls) become an oracle function passed to
`SEARCH_SONG`.

The helper functions imported from `ytmdl.stringutils`
(`remove_multiple_spaces`, `remove_punct`, `remove_stopwords`,
`compute_jaccard`) and the third-party `unidecode` are not part of the
embedded source file; they are modelled from the specification, as marked in
their doc comments.
-/

namespace Ytmdl

/-- Whitespace recognised by Python `str.split()` (no arguments): space, tab,
newline, carriage return, vertical tab and form feed. -/
def isPyWhitespace (c : Char) : Bool :=
  c = ' ' || c = '\t' || c = '\n' || c = '\r' || c = '\x0b' || c = '\x0c'

/-- Helper for `pySplit`: walks the character list, accumulating the current
word (in reverse); words are emitted at whitespace boundaries and at the end. -/
def pySplitAux : List Char → List Char → List String
  | [], [] => []
  | [], acc => [String.mk acc.reverse]
  | c :: rest, acc =>
    if isPyWhitespace c then
      match acc with
      | [] => pySplitAux rest []
      | _ :: _ => String.mk acc.reverse :: pySplitAux rest []
    else pySplitAux rest (c :: acc)

/-- Python `str.split()` with no arguments: split on runs of whitespace,
discarding empty strings (so leading/trailing whitespace produces no empty
tokens). -/
def pySplit (s : String) : List String :=
  pySplitAux s.toList []

/-- Python `' '.join(words)`. -/
def joinSpace (ws : List String) : String :=
  String.intercalate " " ws

/-- Python `str.lower()` restricted to the characters appearing in this
development: ASCII letters are lower-cased and the Latin-1 capital E with
acute accent maps to its lower-case form; every other character is kept. -/
def pyLower (s : String) : String :=
  String.mk (s.toList.map (fun c => if c = 'É' then 'é' else c.toLower))

/-- Modelled from the spec: `unidecode` ("transliterate to ASCII-equivalent").
The third-party library is not part of the repository; the model keeps ASCII
characters and transliterates the accented Latin vowels that appear in this
development, one character at a time. -/
def unidecodeChar (c : Char) : String :=
  if c = 'é' then "e"
  else if c = 'É' then "E"
  else if c = 'á' then "a"
  else if c = 'à' then "a"
  else if c = 'ü' then "u"
  else String.singleton c

/-- Modelled from the spec: `unidecode` applied to a whole string. -/
def unidecode (s : String) : String :=
  String.join (s.toList.map unidecodeChar)

/-- Helper for `remove_multiple_spaces`: `sawSpace` records whether the
previous character was whitespace, so that a run collapses to one space. -/
def collapseSpacesAux : Bool → List Char → List Char
  | _, [] => []
  | sawSpace, c :: rest =>
    if isPyWhitespace c then
      if sawSpace then collapseSpacesAux true rest
      else ' ' :: collapseSpacesAux true rest
    else c :: collapseSpacesAux false rest

/-- Modelled from the spec: `remove_multiple_spaces` from `ytmdl.stringutils`
("collapse runs of whitespace to one space"). -/
def remove_multiple_spaces (s : String) : String :=
  String.mk (collapseSpacesAux false s.toList)

/-- Modelled from the spec: the fixed stopword list of
`ytmdl.stringutils.remove_stopwords` ("a fixed list of low-information words,
e.g. \"the\", \"feat\", \"ft\""). -/
def STOPWORDS : List String :=
  ["the", "feat", "ft"]

/-- Modelled from the spec: `remove_stopwords` from `ytmdl.stringutils`
("strip stopwords"): drop every whitespace-delimited word that is in the
fixed stopword list, rejoining the remaining words with single spaces. -/
def remove_stopwords (s : String) : String :=
  joinSpace ((pySplit s).filter (fun w => ¬ STOPWORDS.contains w))

/-- ASCII punctuation, exactly the characters of Python
`string.punctuation` (codes 33–47, 58–64, 91–96 and 123–126). -/
def isPunctChar (c : Char) : Bool :=
  (33 ≤ c.toNat && c.toNat ≤ 47) ||
  (58 ≤ c.toNat && c.toNat ≤ 64) ||
  (91 ≤ c.toNat && c.toNat ≤ 96) ||
  (123 ≤ c.toNat && c.toNat ≤ 126)

/-- Modelled from the spec: `remove_punct` from `ytmdl.stringutils`
("strip punctuation characters"): delete every ASCII punctuation character. -/
def remove_punct (s : String) : String :=
  String.mk (s.toList.filter (fun c => ¬ isPunctChar c))

/-- Modelled from the spec: `compute_jaccard` from `ytmdl.stringutils` on two
token sets ("intersection size / union size", "returns 0 when both inputs are
empty"). -/
def jaccardSets (A B : Finset String) : ℚ :=
  if (A ∪ B).card = 0 then 0
  else ((A ∩ B).card : ℚ) / ((A ∪ B).card : ℚ)

/-- Modelled from the spec: `compute_jaccard` from `ytmdl.stringutils` as it
is called on token lists: the lists are viewed as sets. -/
def compute_jaccard (a b : List String) : ℚ :=
  jaccardSets a.toFinset b.toFinset

/-- Helper for `stripParens`: when the Bool state is `true` the scanner is
inside a parenthesized group and is discarding characters up to and including
the first `)`; the state only becomes `true` when a `)` is known to follow,
mirroring the fact that the regex `\([^)]*\)` needs a closing parenthesis to
match. -/
def stripParensAux : Bool → List Char → List Char
  | _, [] => []
  | true, c :: rest =>
    if c = ')' then stripParensAux false rest
    else stripParensAux true rest
  | false, c :: rest =>
    if c = '(' && rest.contains ')' then stripParensAux true rest
    else c :: stripParensAux false rest

/-- Python `re.sub(r'\([^)]*\)', '', s)`: remove every parenthesized group
(from a `(` up to the first following `)`, inclusive); a `(` with no later
`)` is kept. -/
def stripParens (s : String) : String :=
  String.mk (stripParensAux false s.toList)

/-- Python `re.sub(r'&', 'and', s)`: replace every ampersand by `and`. -/
def replaceAmp (s : String) : String :=
  String.join (s.toList.map (fun c => if c = '&' then "and" else String.singleton c))

/-- Python `s.split('T')[0]`: the part of the string before the first `T`
(the whole string when there is no `T`). -/
def takeBeforeT (s : String) : String :=
  String.mk (s.toList.takeWhile (fun c => c ≠ 'T'))

end Ytmdl

namespace Ytmdl

/-- One candidate metadata record (spec: CandidateRecord). `release_date` is
`none` for Python `None`; `hash` is the provider-defined opaque identity
(Python `item.hash()`). -/
structure Song where
  track_name : String
  artist_name : String
  collection_name : String
  release_date : Option String
  hash : Nat
deriving Inhabited, DecidableEq

/-- Usability test for a release date, mirroring the repeated Python test
`release_date is not None and release_date != ""`. -/
def hasDate (s : Song) : Bool :=
  match s.release_date with
  | none => false
  | some d => d != ""

/-- Normalization pipeline applied to the query and the display title in
`_search_tokens` (lines 140–152): `remove_punct(remove_stopwords(
remove_multiple_spaces(unidecode(s)).lower()))`. -/
def normalizeQueryStr (s : String) : String :=
  remove_punct (remove_stopwords (pyLower (remove_multiple_spaces (unidecode s))))

/-- The query token list `ytSongNameTokens`: normalized query split on
whitespace, truncated to the leading 5 tokens. -/
def ytSongNameTokens (song_name : String) : List String :=
  (pySplit (normalizeQueryStr song_name)).take 5

/-- The display-title token list `ytTitleTokens`: normalized title split on
whitespace, not truncated. -/
def ytTitleTokens (yt_title : String) : List String :=
  pySplit (normalizeQueryStr yt_title)

/-- Normalization pipeline applied to provider track/artist/album names in
`_search_tokens` (lines 157–166, 179–188 and 193–202): lower-case, strip
parenthesized groups, replace `&` by `and`, strip stopwords, strip
punctuation, collapse whitespace, transliterate, split. -/
def providerFieldTokens (s : String) : List String :=
  pySplit (unidecode (remove_multiple_spaces (remove_punct (remove_stopwords (replaceAmp (stripParens (pyLower s)))))))

/-- One scored candidate, the Python tuple
`(song_back, dist, albumDist, artistDist, weightedDist)`. -/
structure Scored where
  song : Song
  dist : ℚ
  albumDist : ℚ
  artistDist : ℚ
  weightedDist : ℚ
deriving Inhabited, DecidableEq

/-- Scoring of one candidate inside the `for song in cached_songs` loop of
`_search_tokens`: compute the title Jaccard distance, apply the relevance
floor `dist >= SEARCH_SENSITIVITY`, and compute artist/album/weighted
distances only when the normalized display title is non-empty
(`if yt_title:`). Returns `none` when the candidate is dropped. -/
def scoreSong (qTokens tTokens : List String) (hintPresent : Bool) (sens : ℚ)
    (song : Song) : Option Scored :=
  let pTokens := providerFieldTokens song.track_name
  let dist := compute_jaccard qTokens pTokens
  if sens ≤ dist then
    if hintPresent then
      let aTokens := providerFieldTokens song.artist_name
      let artistDist := compute_jaccard tTokens aTokens
      let albumTokens := ((providerFieldTokens song.collection_name).toFinset \ pTokens.toFinset) \ aTokens.toFinset
      let albumDist := jaccardSets tTokens.toFinset albumTokens
      some ⟨song, dist, albumDist, artistDist,
        albumDist * (65/100) + artistDist * (3/10) + dist * (5/100)⟩
    else
      some ⟨song, dist, 0, 0, 0⟩
  else
    none

/-- The surviving scored candidates `res`, in input order (before sorting). -/
def scoredCandidates (song_name yt_title : String) (sens : ℚ)
    (song_list : List Song) : List Scored :=
  song_list.filterMap
    (scoreSong (ytSongNameTokens song_name) (ytTitleTokens yt_title)
      (normalizeQueryStr yt_title != "") sens)

/-- The Python sort key `(x[4], x[2], x[3], x[1])`, i.e.
`(weightedDist, albumDist, artistDist, dist)`, with Python's lexicographic
tuple comparison (the `Lex` order on nested pairs). -/
def rankKey (x : Scored) : Lex (ℚ × Lex (ℚ × Lex (ℚ × ℚ))) :=
  toLex (x.weightedDist, toLex (x.albumDist, toLex (x.artistDist, x.dist)))

/-- Ordering used by `res.sort(key=..., reverse=True)`: `x` may come before
`y` exactly when the key of `y` is lexicographically at most the key of `x`.
A stable sort with this ordering is Python's stable descending sort. -/
def scoredLe (x y : Scored) : Bool :=
  decide (rankKey y ≤ rankKey x)

/-- The sorted candidate list (descending by `rankKey`, stable). -/
def rankedScored (song_name yt_title : String) (sens : ℚ)
    (song_list : List Song) : List Scored :=
  (scoredCandidates song_name yt_title sens song_list).mergeSort scoredLe

/-- Python exceptions that can escape the embedded code. -/
inductive PyErr where
  | valueError
  | indexError
  | attributeError
deriving Inhabited, DecidableEq

/-- Digit-string parsing, Python `int(s)` restricted to digit runs:
accumulates decimal digits, failing on any non-digit. -/
def natOfDigitsAux : List Char → Nat → Option Nat
  | [], acc => some acc
  | c :: rest, acc =>
    if c.isDigit then natOfDigitsAux rest (acc * 10 + (c.toNat - 48))
    else none

/-- Parse a non-empty all-digit string as a natural number. -/
def pyStrToNat (s : String) : Option Nat :=
  match s.toList with
  | [] => none
  | cs => natOfDigitsAux cs 0

/-- The `%Y` directive of `datetime.strptime`: one to four digits, year at
least 1 (`datetime.MINYEAR`). -/
def parseY (s : String) : Option Nat :=
  if s.length ≤ 4 then
    match pyStrToNat s with
    | some y => if 1 ≤ y then some y else none
    | none => none
  else none

/-- The `%m` directive: one or two digits, month in 1..12. -/
def parseMonth (s : String) : Option Nat :=
  if s.length = 1 ∨ s.length = 2 then
    match pyStrToNat s with
    | some m => if 1 ≤ m ∧ m ≤ 12 then some m else none
    | none => none
  else none

/-- Gregorian leap-year rule, as used by `datetime` for day validation. -/
def isLeapYear (y : Nat) : Bool :=
  (y % 4 = 0 && y % 100 ≠ 0) || y % 400 = 0

/-- Days in a month of a given year. -/
def daysInMonth (y m : Nat) : Nat :=
  if m = 2 then (if isLeapYear y then 29 else 28)
  else if m = 4 ∨ m = 6 ∨ m = 9 ∨ m = 11 then 30
  else 31

/-- The `%d` directive: one or two digits, day in range for the month. -/
def parseDay (y m : Nat) (s : String) : Option Nat :=
  if s.length = 1 ∨ s.length = 2 then
    match pyStrToNat s with
    | some d => if 1 ≤ d ∧ d ≤ daysInMonth y m then some d else none
    | none => none
  else none

/-- Python `s.split('-')` (keeps empty parts). -/
def splitOnDashAux : List Char → List Char → List String
  | [], acc => [String.mk acc.reverse]
  | c :: rest, acc =>
    if c = '-' then String.mk acc.reverse :: splitOnDashAux rest []
    else splitOnDashAux rest (c :: acc)

/-- Python `s.split('-')` on a string. -/
def splitOnDash (s : String) : List String :=
  splitOnDashAux s.toList []

/-- `datetime.strptime(s, "%Y")` as an encoded date `y*10000 + m*100 + d`
with month and day defaulting to 1; the encoding is monotone in the
date, so `datetime` comparison is comparison of the encodings. -/
def parseDateY (s : String) : Option Nat :=
  (parseY s).map (fun y => y * 10000 + 100 + 1)

/-- `datetime.strptime(s, "%Y-%m")` as an encoded date. -/
def parseDateYM (s : String) : Option Nat :=
  match splitOnDash s with
  | [ys, ms] => do
    let y ← parseY ys
    let m ← parseMonth ms
    some (y * 10000 + m * 100 + 1)
  | _ => none

/-- `datetime.strptime(s, "%Y-%m-%d")` as an encoded date. -/
def parseDateYMD (s : String) : Option Nat :=
  match splitOnDash s with
  | [ys, ms, ds] => do
    let y ← parseY ys
    let m ← parseMonth ms
    let d ← parseDay y m ds
    some (y * 10000 + m * 100 + d)
  | _ => none

/-- The release-date parsing of `_search_tokens` lines 225–232: the format is
chosen from the length of the FULL release-date string (4 → `%Y`,
7 → `%Y-%m`, otherwise `%Y-%m-%d`), and the parsed text is the part before
the `T` time separator. `none` models a `ValueError` from `strptime`. -/
def pyParseReleaseDate (full : String) : Option Nat :=
  let s := takeBeforeT full
  if full.length = 4 then parseDateY s
  else if full.length = 7 then parseDateYM s
  else parseDateYMD s

/-- Python `res[0], res[i] = res[i], res[0]`. -/
def swapTop (res : List Scored) (i : Nat) : List Scored :=
  (res.set 0 (res.getD i default)).set i (res.getD 0 default)

/-- The release-date promotion loop of `_search_tokens` (lines 215–236),
from index `i` with current threshold `thr`
(`first_item_weighted_dist`): the body runs only while `i < 10` and
`i < len(res)`; the threshold is recomputed from the current entry when the
top entry has no usable release date; the loop breaks when the current
weighted distance falls below the threshold; otherwise the current entry is
swapped to the top when both have release dates and the top's parses as a
strictly later date, or when the top has no usable date. -/
def promoteAux (res : List Scored) (thr : ℚ) (i : Nat) : Except PyErr (List Scored) :=
  if h : i < 10 ∧ i < res.length then
    let top := res.getD 0 default
    let cur := res.getD i default
    let thr1 := if hasDate top.song then thr else cur.weightedDist * (7/10)
    if cur.weightedDist < thr1 then .ok res
    else if hasDate cur.song ∧ hasDate top.song then
      match pyParseReleaseDate (top.song.release_date.getD ""),
            pyParseReleaseDate (cur.song.release_date.getD "") with
      | some d1, some d2 =>
        if d2 < d1 then promoteAux (swapTop res i) thr1 (i + 1)
        else promoteAux res thr1 (i + 1)
      | _, _ => .error .valueError
    else if ¬ hasDate top.song then promoteAux (swapTop res i) thr1 (i + 1)
    else promoteAux res thr1 (i + 1)
  else .ok res
termination_by 10 - i
decreasing_by all_goals omega

/-- The full promotion pass: threshold seeded with 70% of the top entry's
weighted distance, scan starting at index 1 (`if i == 0: continue`). -/
def promote (res : List Scored) : Except PyErr (List Scored) :=
  match res with
  | [] => .ok []
  | top :: _ => promoteAux res (top.weightedDist * (7/10)) 1

/-- One element of the returned list: either the scored tuple that was left
in place, or a bare candidate record. -/
inductive RankedEntry where
  | scored (x : Scored)
  | record (s : Song)
deriving Inhabited, DecidableEq

/-- Whether an entry is a bare candidate record. -/
def RankedEntry.isRecord : RankedEntry → Bool
  | .scored _ => false
  | .record _ => true

/-- The candidate record underlying an entry. -/
def RankedEntry.song : RankedEntry → Song
  | .scored x => x.song
  | .record s => s

/-- A record with its release date truncated to the part before `T`. -/
def truncSong (s : Song) : Song :=
  { s with release_date := s.release_date.map takeBeforeT }

/-- The body of the final pass (lines 243–248) at index `i`: the very first
entry is left as the scored tuple when its release date is unusable;
otherwise the tuple is dropped and the record's release date truncated
(`release_date.split('T')[0]`), raising `AttributeError` when the release
date is `None`. -/
def entryAt (i : Nat) (x : Scored) : Except PyErr RankedEntry :=
  if ¬ hasDate x.song ∧ i = 0 then .ok (.scored x)
  else
    match x.song.release_date with
    | none => .error .attributeError
    | some d => .ok (.record { x.song with release_date := some (takeBeforeT d) })

/-- The final pass over the list, from index `i`. -/
def finalizeAux : Nat → List Scored → Except PyErr (List RankedEntry)
  | _, [] => .ok []
  | i, x :: rest => do
    let e ← entryAt i x
    let tail ← finalizeAux (i + 1) rest
    pure (e :: tail)

/-- The final pass of `_search_tokens` (lines 239–250). -/
def finalizeRanked (res : List Scored) : Except PyErr (List RankedEntry) :=
  finalizeAux 0 res

/-- The full `_search_tokens(song_name, song_list, yt_title)` ranker, with
the configured sensitivity `preconfig.CONFIG().SEARCH_SENSITIVITY` passed
explicitly as `sens`: score and filter, stable-sort descending, run the
release-date promotion pass, run the final pass. -/
def search_tokens (song_name : String) (song_list : List Song)
    (yt_title : String) (sens : ℚ) : Except PyErr (List RankedEntry) := do
  let promoted ← promote (rankedScored song_name yt_title sens song_list)
  finalizeRanked promoted

end Ytmdl

namespace Ytmdl

/-- The per-song test of `filterSongs`: `artistMatch and albumMatch`, where a
`None` filter component matches everything. -/
def songMatchesFilter (f0 f1 : Option String) (s : Song) : Bool :=
  (match f0 with | none => true | some a => s.artist_name == a) &&
  (match f1 with | none => true | some b => s.collection_name == b)

/-- The `filterSongs(data, filters=[])` function (lines 253–279): `None` data
is returned as is; otherwise the songs are partitioned into those matching
the `(artist, album)` filter pair followed by the rest, both in input order.
Accessing `filters[0]`/`filters[1]` raises `IndexError` whenever the filter
list has fewer than two elements and the loop body runs at least once. -/
def filterSongs (data : Option (List Song)) (filters : List (Option String)) :
    Except PyErr (Option (List Song)) :=
  match data with
  | none => .ok none
  | some songs =>
    match songs with
    | [] => .ok (some [])
    | _ :: _ =>
      if 2 ≤ filters.length then
        let f0 := filters.getD 0 none
        let f1 := filters.getD 1 none
        .ok (some (songs.filter (songMatchesFilter f0 f1) ++
                   songs.filter (fun s => ¬ songMatchesFilter f0 f1 s)))
      else .error .indexError

/-- The `_extend_to_be_sorted_and_rest` helper (lines 282–290): filter the
provider batch when the filter list is non-empty (`if filters:`), then append
it to both the sortable pool and the rest list unless it is `None`. -/
def extend_to_be_sorted_and_rest (provider_data : Option (List Song))
    (to_be_sorted rest : List Song) (filters : List (Option String)) :
    Except PyErr (List Song × List Song) := do
  let pd ← if filters.isEmpty then pure provider_data else filterSongs provider_data filters
  match pd with
  | none => .ok (to_be_sorted, rest)
  | some l => .ok (to_be_sorted ++ l, rest ++ l)

/-- The five extra query variants built from one query string in
`SEARCH_SONG` (lines 316–327 for `search_by`, 332–343 for `yt_title`):
generated only when the query has more than 3 whitespace-delimited words; the
5-word variant only when it has more than 5; then the 3-word, 2-word and
1-word leading-word variants and the window of the words at indices 2 and 3. -/
def expandQuery (q : String) : List String :=
  let ts := pySplit q
  if 3 < ts.length then
    (if 5 < ts.length then [joinSpace (ts.take 5)] else []) ++
    [joinSpace (ts.take 3), joinSpace (ts.take 2), joinSpace (ts.take 1),
     joinSpace ((ts.drop 2).take 2)]
  else []

/-- The full `search_by_query_names_array` before deduplication: the primary
query itself, its expansion, and (when the display title differs from the
primary query) the display title's expansion — note the display title itself
is never appended. -/
def searchByQueryNames (search_by yt_title : String) : List String :=
  [search_by] ++ expandQuery search_by ++
  (if yt_title != search_by then expandQuery yt_title else [])

/-- Helper for `setDedup`, carrying the set of already-seen strings. -/
def setDedupAux (seen : List String) : List String → List String
  | [] => []
  | x :: rest =>
    if seen.contains x then setDedupAux seen rest
    else x :: setDedupAux (x :: seen) rest

/-- Python `set(search_by_query_names_array)`: duplicates collapsed. A Python
set iterates in an unspecified order; the model fixes first-insertion order,
which no claim depends on. -/
def setDedup (l : List String) : List String :=
  setDedupAux [] l

/-- The variant set as a set, for statements about `set(...)` membership. -/
def queryVariantSet (search_by yt_title : String) : Finset String :=
  (searchByQueryNames search_by yt_title).toFinset

/-- Helper for `dedupByHash`, carrying the set `to_be_sorted_hash` of
already-seen identity hashes. -/
def dedupByHashAux (seen : List Nat) : List Song → List Song
  | [] => []
  | s :: rest =>
    if seen.contains s.hash then dedupByHashAux seen rest
    else s :: dedupByHashAux (s.hash :: seen) rest

/-- The deduplication of `to_be_sorted` in `SEARCH_SONG` (lines 366–374):
keep the first record seen for each identity hash, preserving order. -/
def dedupByHash (l : List Song) : List Song :=
  dedupByHashAux [] l

/-- The keys of `GET_METADATA_ACTIONS` (lines 300–308). -/
def KNOWN_PROVIDERS : List String :=
  ["itunes", "gaana", "deezer", "saavn", "lastfm", "musicbrainz", "spotify"]

/-- The inner loop body of `SEARCH_SONG` for one `(variant, provider)` pair.
`lookup` is the oracle for the provider adapters (`get_from_itunes` etc.,
external network calls): it returns the adapter's result list or `none` for a
caught provider failure. A falsy result (`None` or the empty list) is
skipped; an unrecognised provider name increments `broken_provider_counter`.
The state is `(to_be_sorted, rest, broken_provider_counter)`. -/
def collectProvider (lookup : String → String → Option (List Song))
    (filters : List (Option String)) (q provider : String)
    (st : List Song × List Song × Nat) :
    Except PyErr (List Song × List Song × Nat) :=
  if KNOWN_PROVIDERS.contains provider then
    match lookup provider q with
    | some (x :: xs) => do
      let (tbs, rest) ← extend_to_be_sorted_and_rest (some (x :: xs)) st.1 st.2.1 filters
      .ok (tbs, rest, st.2.2)
    | _ => .ok st
  else .ok (st.1, st.2.1, st.2.2 + 1)

/-- The provider loop of `SEARCH_SONG` for one query variant. -/
def collectProviders (lookup : String → String → Option (List Song))
    (filters : List (Option String)) (q : String) :
    List String → (List Song × List Song × Nat) →
    Except PyErr (List Song × List Song × Nat)
  | [], st => .ok st
  | p :: ps, st => do
    collectProviders lookup filters q ps (← collectProvider lookup filters q p st)

/-- The outer variant loop of `SEARCH_SONG`. -/
def collectVariants (lookup : String → String → Option (List Song))
    (filters : List (Option String)) (providers : List String) :
    List String → (List Song × List Song × Nat) →
    Except PyErr (List Song × List Song × Nat)
  | [], st => .ok st
  | q :: qs, st => do
    collectVariants lookup filters providers qs
      (← collectProviders lookup filters q providers st)

/-- The observable outcome of `SEARCH_SONG`. -/
inductive SearchOutcome where
  | fatalConfig
  | noMatch
  | unsorted (songs : List Song)
  | ranked (entries : List RankedEntry)
deriving Inhabited, DecidableEq

/-- The `SEARCH_SONG` driver function (lines 293–399): build and deduplicate the
query variants, fan out to the configured providers, deduplicate the pool by
identity hash, escalate to the fatal configuration outcome when
`broken_provider_counter == len(metadata_providers)` (Modelled from the spec:
`logger.critical` of the external `simber` library terminates execution, so
the fatal configuration case is surfaced instead of any later result), return
`None` (`noMatch`) for an empty pool, the raw pool when sorting is disabled,
and otherwise the ranked output of `_search_tokens`. -/
def SEARCH_SONG (lookup : String → String → Option (List Song))
    (metadata_providers : List String) (search_by song_name : String)
    (filters : List (Option String)) (disable_sort : Bool)
    (yt_title : String) (sens : ℚ) : Except PyErr SearchOutcome := do
  let variants := setDedup (searchByQueryNames search_by yt_title)
  let (tbs0, _r, broken) ← collectVariants lookup filters metadata_providers variants ([], [], 0)
  let to_be_sorted := dedupByHash tbs0
  if broken = metadata_providers.length then
    .ok .fatalConfig
  else if to_be_sorted.isEmpty then
    .ok .noMatch
  else if disable_sort then
    .ok (.unsorted to_be_sorted)
  else do
    let sorted_data ← search_tokens song_name to_be_sorted yt_title sens
    .ok (.ranked sorted_data)

/-- Modelled from the spec: the Text Normalizer contract in the spec's stated
order — "transliterate to ASCII-equivalent, collapse runs of whitespace to
one space, lower-case, strip stopwords, strip punctuation characters, split
on whitespace into tokens". -/
def spec_normalize (s : String) : List String :=
  pySplit (remove_punct (remove_stopwords (pyLower (remove_multiple_spaces (unidecode s)))))

/-- Modelled from the spec: "Field-specific preprocessing before
normalization: strip any parenthesized substring and replace `&` with
\"and\" — applied to provider track/artist/album names before normalization"
— i.e. the preprocessing followed by the stated normalization order. -/
def spec_providerNormalize (s : String) : List String :=
  spec_normalize (replaceAmp (stripParens s))

end Ytmdl

namespace Ytmdl

/-- The title Jaccard score of a candidate against the (truncated) normalized
query, the quantity compared against the configured sensitivity. -/
def titleScore (song_name : String) (s : Song) : ℚ :=
  compute_jaccard (ytSongNameTokens song_name) (providerFieldTokens s.track_name)

theorem truncSong_track_name (s : Song) : (truncSong s).track_name = s.track_name := rfl

theorem scoreSong_eq_some {q t : List String} {hint : Bool} {sens : ℚ} {song : Song}
    {x : Scored} (h : scoreSong q t hint sens song = some x) :
    x.song = song ∧ x.dist = compute_jaccard q (providerFieldTokens song.track_name) ∧
      sens ≤ compute_jaccard q (providerFieldTokens song.track_name) := by
  by_cases hc : sens ≤ compute_jaccard q (providerFieldTokens song.track_name)
  · cases hint <;>
    · simp only [scoreSong, if_pos hc] at h
      cases h
      exact ⟨rfl, rfl, hc⟩
  · cases hint <;>
    · simp only [scoreSong, if_neg hc] at h
      exact absurd h (by simp)

theorem scoreSong_isSome_of_le {q t : List String} {hint : Bool} {sens : ℚ} {song : Song}
    (hc : sens ≤ compute_jaccard q (providerFieldTokens song.track_name)) :
    (scoreSong q t hint sens song).isSome := by
  cases hint <;> simp [scoreSong, hc]

theorem scoreSong_weighted {q t : List String} {sens : ℚ} {song : Song} {x : Scored}
    (h : scoreSong q t true sens song = some x) :
    x.weightedDist = x.albumDist * (65/100) + x.artistDist * (3/10) + x.dist * (5/100) := by
  by_cases hc : sens ≤ compute_jaccard q (providerFieldTokens song.track_name)
  · simp only [scoreSong, if_pos hc] at h
    cases h
    rfl
  · simp only [scoreSong, if_neg hc] at h
    exact absurd h (by simp)

theorem scoreSong_no_hint {q t : List String} {sens : ℚ} {song : Song} {x : Scored}
    (h : scoreSong q t false sens song = some x) :
    x.albumDist = 0 ∧ x.artistDist = 0 ∧ x.weightedDist = 0 := by
  by_cases hc : sens ≤ compute_jaccard q (providerFieldTokens song.track_name)
  · simp only [scoreSong, if_pos hc] at h
    cases h
    exact ⟨rfl, rfl, rfl⟩
  · simp only [scoreSong, if_neg hc] at h
    exact absurd h (by simp)

theorem mem_scoredCandidates {song_name yt_title : String} {sens : ℚ}
    {songs : List Song} {x : Scored} :
    x ∈ scoredCandidates song_name yt_title sens songs ↔
      ∃ s ∈ songs, scoreSong (ytSongNameTokens song_name) (ytTitleTokens yt_title)
        (normalizeQueryStr yt_title != "") sens s = some x := by
  simp [scoredCandidates, List.mem_filterMap]

theorem scoredLe_trans (a b c : Scored) :
    scoredLe a b → scoredLe b c → scoredLe a c := by
  simp only [scoredLe, decide_eq_true_eq]
  exact fun h1 h2 => le_trans h2 h1

theorem scoredLe_total (a b : Scored) : scoredLe a b || scoredLe b a := by
  simp only [scoredLe]
  rcases le_total (rankKey b) (rankKey a) with h | h <;> simp [h]

theorem rankedScored_perm (song_name yt_title : String) (sens : ℚ) (songs : List Song) :
    (rankedScored song_name yt_title sens songs).Perm
      (scoredCandidates song_name yt_title sens songs) :=
  List.mergeSort_perm _ _

theorem rankedScored_sorted (song_name yt_title : String) (sens : ℚ) (songs : List Song) :
    (rankedScored song_name yt_title sens songs).Pairwise (fun a b => scoredLe a b = true) :=
  List.sorted_mergeSort scoredLe_trans scoredLe_total _

theorem getD_cons_set_perm :
    ∀ (l : List Scored) (k : Nat) (a : Scored), k < l.length →
      ((l.getD k default) :: l.set k a).Perm (a :: l) := by
  intro l
  induction l with
  | nil => intro k a h; simp at h
  | cons x xs ih =>
    intro k a h
    cases k with
    | zero =>
      simp only [List.getD_cons_zero, List.set_cons_zero]
      exact List.Perm.swap a x xs
    | succ k =>
      have h' : k < xs.length := by simpa using h
      simp only [List.getD_cons_succ, List.set_cons_succ]
      exact (List.Perm.swap x _ _).trans ((List.Perm.cons x (ih k a h')).trans
        (List.Perm.swap a x xs))

theorem swapTop_perm (res : List Scored) (i : Nat) (h : i < res.length) :
    (swapTop res i).Perm res := by
  cases res with
  | nil => simp at h
  | cons a l =>
    cases i with
    | zero => simp [swapTop]
    | succ k =>
      have h' : k < l.length := by simpa using h
      unfold swapTop
      simp only [List.getD_cons_succ, List.getD_cons_zero, List.set_cons_zero, List.set_cons_succ]
      exact getD_cons_set_perm l k a h'

end Ytmdl

namespace Ytmdl

theorem promoteAux_perm_fuel :
    ∀ (n : Nat) (res : List Scored) (thr : ℚ) (i : Nat), 10 - i ≤ n →
      ∀ out, promoteAux res thr i = .ok out → out.Perm res := by
  intro n
  induction n with
  | zero =>
    intro res thr i hn out h
    rw [promoteAux] at h
    rw [dif_neg (by omega : ¬ (i < 10 ∧ i < res.length))] at h
    cases h
    exact List.Perm.refl _
  | succ n ih =>
    intro res thr i hn out h
    rw [promoteAux] at h
    by_cases hc : i < 10 ∧ i < res.length
    · rw [dif_pos hc] at h
      dsimp only at h
      have hrec : ∀ (r : List Scored) (thr' : ℚ), promoteAux r thr' (i+1) = Except.ok out →
          r.Perm res → out.Perm res := by
        intro r thr' hr hp
        exact (ih r thr' (i+1) (by omega) out hr).trans hp
      have hswap := swapTop_perm res i hc.2
      repeat' split at h
      all_goals first
        | (cases h; exact List.Perm.refl _)
        | exact hrec _ _ h hswap
        | exact hrec _ _ h (List.Perm.refl _)
        | simp at h
    · rw [dif_neg hc] at h
      cases h
      exact List.Perm.refl _

theorem promote_perm (res : List Scored) (out : List Scored)
    (h : promote res = .ok out) : out.Perm res := by
  cases res with
  | nil => cases h; exact List.Perm.refl _
  | cons top rest =>
    exact promoteAux_perm_fuel 10 _ _ 1 (by omega) out h

theorem entryAt_ok {i : Nat} {x : Scored} {e : RankedEntry}
    (h : entryAt i x = .ok e) :
    (i = 0 ∧ hasDate x.song = false ∧ e = .scored x) ∨
      e = .record (truncSong x.song) := by
  unfold entryAt at h
  split at h
  · rename_i hcond
    cases h
    exact Or.inl ⟨hcond.2, by simpa using hcond.1, rfl⟩
  · rename_i hcond
    cases hrd : x.song.release_date with
    | none => rw [hrd] at h; exact absurd h (by simp)
    | some d =>
      rw [hrd] at h
      cases h
      refine Or.inr ?_
      unfold truncSong
      rw [hrd]
      rfl

theorem finalizeAux_ok_mem {l : List Scored} :
    ∀ {j : Nat} {out : List RankedEntry}, finalizeAux j l = .ok out →
      (∀ e ∈ out, ∃ x ∈ l, e = .scored x ∨ e = .record (truncSong x.song)) ∧
      (∀ x ∈ l, ∃ e ∈ out, e = .scored x ∨ e = .record (truncSong x.song)) := by
  induction l with
  | nil =>
    intro j out h
    cases h
    exact ⟨by simp, by simp⟩
  | cons x rest ih =>
    intro j out h
    unfold finalizeAux at h
    cases he : entryAt j x with
    | error err => rw [he] at h; exact absurd h (by simp [Bind.bind, Except.bind])
    | ok e =>
      rw [he] at h
      cases ht : finalizeAux (j+1) rest with
      | error err =>
        rw [ht] at h
        exact absurd h (by simp [Bind.bind, Except.bind])
      | ok tail =>
        rw [ht] at h
        simp only [Bind.bind, Except.bind, pure, Except.pure] at h
        cases h
        obtain ⟨ihf, ihb⟩ := ih ht
        constructor
        · intro e' he'
          rcases List.mem_cons.mp he' with rfl | hmem
          · rcases entryAt_ok he with ⟨_, _, rfl⟩ | rfl
            · exact ⟨x, List.mem_cons_self x rest, Or.inl rfl⟩
            · exact ⟨x, List.mem_cons_self x rest, Or.inr rfl⟩
          · obtain ⟨y, hy, hshape⟩ := ihf e' hmem
            exact ⟨y, List.mem_cons_of_mem x hy, hshape⟩
        · intro y hy
          rcases List.mem_cons.mp hy with rfl | hmem
          · rcases entryAt_ok he with ⟨_, _, rfl⟩ | rfl
            · exact ⟨.scored y, List.mem_cons_self _ _, Or.inl rfl⟩
            · exact ⟨.record (truncSong y.song), List.mem_cons_self _ _, Or.inr rfl⟩
          · obtain ⟨e', he', hshape⟩ := ihb y hmem
            exact ⟨e', List.mem_cons_of_mem _ he', hshape⟩

theorem finalizeAux_ok_getD {l : List Scored} :
    ∀ {j : Nat} {out : List RankedEntry}, finalizeAux j l = .ok out →
      out.length = l.length ∧
        ∀ k, k < l.length →
          entryAt (j + k) (l.getD k default) = .ok (out.getD k default) := by
  induction l with
  | nil =>
    intro j out h
    cases h
    exact ⟨rfl, by intro k hk; simp at hk⟩
  | cons x rest ih =>
    intro j out h
    unfold finalizeAux at h
    cases he : entryAt j x with
    | error err => rw [he] at h; exact absurd h (by simp [Bind.bind, Except.bind])
    | ok e =>
      rw [he] at h
      cases ht : finalizeAux (j+1) rest with
      | error err =>
        rw [ht] at h
        exact absurd h (by simp [Bind.bind, Except.bind])
      | ok tail =>
        rw [ht] at h
        simp only [Bind.bind, Except.bind, pure, Except.pure] at h
        cases h
        obtain ⟨hlen, hidx⟩ := ih ht
        refine ⟨by simp [hlen], ?_⟩
        intro k hk
        cases k with
        | zero => simpa using he
        | succ k =>
          have hk' : k < rest.length := by simpa using hk
          have := hidx k hk'
          simpa [Nat.add_assoc, Nat.add_comm 1 k, Nat.add_left_comm] using this

theorem search_tokens_ok {song_name yt_title : String} {sens : ℚ}
    {songs : List Song} {out : List RankedEntry}
    (h : search_tokens song_name songs yt_title sens = .ok out) :
    ∃ mid, promote (rankedScored song_name yt_title sens songs) = .ok mid ∧
      finalizeRanked mid = .ok out := by
  unfold search_tokens at h
  cases hp : promote (rankedScored song_name yt_title sens songs) with
  | error err => rw [hp] at h; exact absurd h (by simp [Bind.bind, Except.bind])
  | ok mid =>
    rw [hp] at h
    simp only [Bind.bind, Except.bind] at h
    exact ⟨mid, rfl, h⟩

end Ytmdl

namespace Ytmdl

theorem dedupByHashAux_sublist : ∀ (l : List Song) (seen : List Nat),
    (dedupByHashAux seen l).Sublist l := by
  intro l
  induction l with
  | nil => intro seen; simp [dedupByHashAux]
  | cons s rest ih =>
    intro seen
    unfold dedupByHashAux
    by_cases hc : seen.contains s.hash
    · rw [if_pos hc]
      exact (ih seen).cons s
    · rw [if_neg hc]
      exact (ih (s.hash :: seen)).cons₂ s

theorem dedupByHashAux_filter (h : Nat) : ∀ (l : List Song) (seen : List Nat),
    (dedupByHashAux seen l).filter (fun t => t.hash == h) =
      if seen.contains h then []
      else
        match l.find? (fun t => t.hash == h) with
        | some s => [s]
        | none => [] := by
  intro l
  induction l with
  | nil =>
    intro seen
    by_cases hc : seen.contains h <;> simp [dedupByHashAux, hc]
  | cons s rest ih =>
    intro seen
    unfold dedupByHashAux
    by_cases hsh : s.hash = h
    · subst hsh
      by_cases hc : seen.contains s.hash
      · rw [if_pos hc, ih seen, if_pos hc, if_pos hc]
      · rw [if_neg hc, if_neg hc]
        simp only [List.filter_cons, beq_self_eq_true, if_pos]
        rw [ih (s.hash :: seen)]
        simp [List.find?_cons]
    · by_cases hc : seen.contains s.hash
      · rw [if_pos hc, ih seen]
        have hbe : (s.hash == h) = false := by simp [hsh]
        simp [List.find?_cons, hbe]
      · rw [if_neg hc]
        have hbe : (s.hash == h) = false := by simp [hsh]
        simp only [List.filter_cons, hbe, if_neg, Bool.false_eq_true, not_false_iff]
        rw [ih (s.hash :: seen)]
        have hne2 : (h == s.hash) = false := beq_eq_false_iff_ne.mpr (fun he => hsh he.symm)
        have : (s.hash :: seen).contains h = seen.contains h := by
          simp only [List.contains_cons, hne2, Bool.false_or]
        rw [this]
        simp [List.find?_cons, hbe]

theorem dedupByHash_filter (l : List Song) (h : Nat) (s : Song)
    (hfind : l.find? (fun t => t.hash == h) = some s) :
    (dedupByHash l).filter (fun t => t.hash == h) = [s] := by
  unfold dedupByHash
  rw [dedupByHashAux_filter h l []]
  simp [hfind]

theorem dedupByHash_hash_mem (l : List Song) (s : Song) (hs : s ∈ l) :
    ∃ t ∈ dedupByHash l, t.hash = s.hash := by
  have hex : ∃ a ∈ l, (fun t => t.hash == s.hash) a = true := ⟨s, hs, by simp⟩
  rw [← List.find?_isSome] at hex
  cases hfind : l.find? (fun t => t.hash == s.hash) with
  | none => rw [hfind] at hex; simp at hex
  | some t =>
    have hfilter := dedupByHash_filter l s.hash t hfind
    have ht : t ∈ (dedupByHash l).filter (fun t => t.hash == s.hash) := by
      rw [hfilter]; exact List.mem_singleton.mpr rfl
    obtain ⟨hmem, hp⟩ := List.mem_filter.mp ht
    exact ⟨t, hmem, by simpa using hp⟩

end Ytmdl

namespace Ytmdl

theorem joinSpace_singleton (a : String) : joinSpace [a] = a := rfl

theorem expandQuery_of_six {q u0 u1 u2 u3 u4 u5 : String}
    (h : pySplit q = [u0, u1, u2, u3, u4, u5]) :
    expandQuery q = [joinSpace [u0, u1, u2, u3, u4], joinSpace [u0, u1, u2],
      joinSpace [u0, u1], u0, joinSpace [u2, u3]] := by
  simp [expandQuery, h, joinSpace_singleton]

theorem expandQuery_short {q : String} (h : (pySplit q).length ≤ 3) :
    expandQuery q = [] := by
  unfold expandQuery
  rw [if_neg (by omega)]

theorem expandQuery_mid {q : String} (h3 : 3 < (pySplit q).length)
    (h5 : (pySplit q).length ≤ 5) :
    expandQuery q = [joinSpace ((pySplit q).take 3), joinSpace ((pySplit q).take 2),
      joinSpace ((pySplit q).take 1), joinSpace (((pySplit q).drop 2).take 2)] := by
  unfold expandQuery
  rw [if_pos (by omega), if_neg (by omega)]
  simp

theorem mem_queryVariantSet_self (q yt : String) : q ∈ queryVariantSet q yt := by
  simp [queryVariantSet, searchByQueryNames]

theorem queryVariantSet_of_six {q yt u0 u1 u2 u3 u4 u5 : String}
    (h : pySplit q = [u0, u1, u2, u3, u4, u5])
    (hyt : yt = q ∨ (pySplit yt).length ≤ 3) :
    queryVariantSet q yt = {q, joinSpace [u0, u1, u2, u3, u4], joinSpace [u0, u1, u2],
      joinSpace [u0, u1], u0, joinSpace [u2, u3]} := by
  have hexp := expandQuery_of_six h
  unfold queryVariantSet searchByQueryNames
  rcases hyt with rfl | hshort
  · simp [hexp]
  · by_cases heq : yt = q
    · subst heq; simp [hexp]
    · have : (yt != q) = true := bne_iff_ne.mpr heq
      rw [this, expandQuery_short hshort]
      simp [hexp]

theorem collectProvider_falsy {lookup : String → String → Option (List Song)}
    {filters : List (Option String)} {q p : String}
    {st : List Song × List Song × Nat}
    (hknown : KNOWN_PROVIDERS.contains p = true)
    (hfalsy : lookup p q = none ∨ lookup p q = some []) :
    collectProvider lookup filters q p st = .ok st := by
  unfold collectProvider
  rw [if_pos hknown]
  rcases hfalsy with hf | hf <;> rw [hf]

theorem collectProviders_falsy {lookup : String → String → Option (List Song)}
    {filters : List (Option String)} {q : String} :
    ∀ (ps : List String) (st : List Song × List Song × Nat),
      (∀ p ∈ ps, KNOWN_PROVIDERS.contains p = true) →
      (∀ p ∈ ps, lookup p q = none ∨ lookup p q = some []) →
      collectProviders lookup filters q ps st = .ok st := by
  intro ps
  induction ps with
  | nil => intro st _ _; rfl
  | cons p rest ih =>
    intro st hknown hfalsy
    unfold collectProviders
    rw [collectProvider_falsy (hknown p (List.mem_cons_self p rest))
      (hfalsy p (List.mem_cons_self p rest))]
    simp only [Bind.bind, Except.bind]
    exact ih st (fun x hx => hknown x (List.mem_cons_of_mem p hx))
      (fun x hx => hfalsy x (List.mem_cons_of_mem p hx))

theorem collectVariants_falsy {lookup : String → String → Option (List Song)}
    {filters : List (Option String)} {providers : List String} :
    ∀ (qs : List String) (st : List Song × List Song × Nat),
      (∀ p ∈ providers, KNOWN_PROVIDERS.contains p = true) →
      (∀ p ∈ providers, ∀ q ∈ qs, lookup p q = none ∨ lookup p q = some []) →
      collectVariants lookup filters providers qs st = .ok st := by
  intro qs
  induction qs with
  | nil => intro st _ _; rfl
  | cons q rest ih =>
    intro st hknown hfalsy
    unfold collectVariants
    rw [collectProviders_falsy providers st hknown
      (fun p hp => hfalsy p hp q (List.mem_cons_self q rest))]
    simp only [Bind.bind, Except.bind]
    exact ih st hknown (fun p hp x hx => hfalsy p hp x (List.mem_cons_of_mem q hx))

theorem filterSongs_short {s : Song} {l : List Song} {filters : List (Option String)}
    (h : filters.length < 2) :
    filterSongs (some (s :: l)) filters = .error .indexError := by
  unfold filterSongs
  dsimp only
  rw [if_neg (by omega)]

theorem extend_no_filters (pd : Option (List Song)) (tbs rest : List Song) :
    extend_to_be_sorted_and_rest pd tbs rest [] =
      .ok (tbs ++ pd.getD [], rest ++ pd.getD []) := by
  unfold extend_to_be_sorted_and_rest
  simp only [List.isEmpty_nil, if_pos, Bind.bind, Except.bind, pure, Except.pure]
  cases pd with
  | none => simp
  | some l => rfl

end Ytmdl

namespace Ytmdl

/-- C5: after deduplication the pool handed to the ranker contains, for each
distinct identity hash, exactly the first-seen record with that hash
(the filter by that hash of the deduplicated pool is the singleton of the
first match), the surviving records appear in the same relative order in
which they were appended (a sublist of the input), and every hash present in
the input survives — so of two records with identical identity-hash inputs
exactly the earlier one remains. -/
theorem C5_dedup_first_seen (l : List Song) :
    (dedupByHash l).Sublist l ∧
    (∀ h s, l.find? (fun t => t.hash == h) = some s →
      (dedupByHash l).filter (fun t => t.hash == h) = [s]) ∧
    (∀ s ∈ l, ∃ t ∈ dedupByHash l, t.hash = s.hash) :=
  ⟨dedupByHashAux_sublist l [],
   fun h s hf => dedupByHash_filter l h s hf,
   fun s hs => dedupByHash_hash_mem l s hs⟩

/-- Records used by the C5 witness: two records with the same identity hash. -/
def c5r1 : Song := ⟨"a", "", "", none, 7⟩

/-- Second record of the C5 witness pair. -/
def c5r2 : Song := ⟨"b", "", "", none, 7⟩

/-- Witness for C5 at a concrete duplicate pair: only the earlier record
remains. -/
theorem C5_dedup_first_seen_witness :
    (dedupByHash [c5r1, c5r2]).filter (fun t => t.hash == 7) = [c5r1] ∧
    (dedupByHash [c5r1, c5r2]).Sublist [c5r1, c5r2] := by
  refine ⟨(C5_dedup_first_seen [c5r1, c5r2]).2.1 7 c5r1 (by decide), ?_⟩
  exact (C5_dedup_first_seen [c5r1, c5r2]).1

/-- C6: the claim states that a configuration in which every provider name is
unrecognized surfaces the fatal configuration outcome. The code counts one
broken-provider increment per (variant, provider) pair but compares the
counter with the number of providers, so with the four-word query
"a b c d" (five query variants) and the single unrecognized provider
"notreal" the counter is 5, the comparison `5 == 1` fails, and the search
returns the plain no-match outcome instead of the fatal configuration
outcome. -/
theorem C6_code_behavior :
    SEARCH_SONG (fun _ _ => none) ["notreal"] "a b c d" "a b c d" [] false "a b c d" 0 =
      .ok .noMatch ∧
    KNOWN_PROVIDERS.contains "notreal" = false ∧
    (setDedup (searchByQueryNames "a b c d" "a b c d")).length = 5 ∧
    SearchOutcome.noMatch ≠ SearchOutcome.fatalConfig :=
  ⟨rfl, rfl, rfl, by simp⟩

/-- C7: the variant set of a 6-word query (with no separate display-title
expansion) is exactly the full query, the 5-, 3-, 2- and 1-leading-word
variants, and the window of the words at indices 2 and 3, duplicates
collapsed by the set; the primary query is always a member; the extra
variants appear only for queries of more than 3 words, and for 4- or 5-word
queries the 5-word variant is omitted. -/
theorem C7_query_expansion (q yt u0 u1 u2 u3 u4 u5 : String)
    (h : pySplit q = [u0, u1, u2, u3, u4, u5])
    (hyt : yt = q ∨ (pySplit yt).length ≤ 3) :
    queryVariantSet q yt = {q, joinSpace [u0, u1, u2, u3, u4], joinSpace [u0, u1, u2],
      joinSpace [u0, u1], u0, joinSpace [u2, u3]} ∧
    (∀ r hint, r ∈ queryVariantSet r hint) ∧
    (∀ r, (pySplit r).length ≤ 3 → expandQuery r = []) ∧
    (∀ r, 3 < (pySplit r).length → (pySplit r).length ≤ 5 →
      expandQuery r = [joinSpace ((pySplit r).take 3), joinSpace ((pySplit r).take 2),
        joinSpace ((pySplit r).take 1), joinSpace (((pySplit r).drop 2).take 2)]) :=
  ⟨queryVariantSet_of_six h hyt,
   fun r hint => mem_queryVariantSet_self r hint,
   fun _ hr => expandQuery_short hr,
   fun _ h3 h5 => expandQuery_mid h3 h5⟩

/-- Witness for C7 at the concrete 6-word query. -/
theorem C7_query_expansion_witness :
    queryVariantSet "a b c d e f" "a b c d e f" =
      {"a b c d e f", joinSpace ["a", "b", "c", "d", "e"], joinSpace ["a", "b", "c"],
        joinSpace ["a", "b"], "a", joinSpace ["c", "d"]} :=
  (C7_query_expansion "a b c d e f" "a b c d e f" "a" "b" "c" "d" "e" "f"
    (by decide) (Or.inl rfl)).1

/-- C8 counterexample: the provider-field pipeline is not the stated
normalization order applied after the field preprocessing. On the input
"Thé" the source pipeline lower-cases first and transliterates last, so the
accented word survives stopword removal and comes out as the token "the",
while preprocessing followed by the stated order (transliterate first)
produces "the" before stopword removal, which then deletes it. -/
theorem C8_counterexample :
    providerFieldTokens "Thé" = ["the"] ∧
    spec_providerNormalize "Thé" = [] ∧
    providerFieldTokens "Thé" ≠ spec_providerNormalize "Thé" :=
  ⟨by decide, by decide, by decide⟩

/-- C8 amended: the query and display-title normalization follows the stated
order exactly (transliterate, collapse whitespace, lower-case, strip
stopwords, strip punctuation, split — with the query additionally truncated
to 5 tokens), and the field preprocessing is never applied to the query
(parenthesized words survive); the provider fields are instead processed as
lower-case first, then strip parentheses, replace `&`, strip stopwords,
strip punctuation, collapse whitespace, transliterate last, split. -/
theorem C8_amended :
    (∀ s, ytTitleTokens s = spec_normalize s) ∧
    (∀ s, ytSongNameTokens s = (spec_normalize s).take 5) ∧
    (∀ s, providerFieldTokens s =
      pySplit (unidecode (remove_multiple_spaces (remove_punct (remove_stopwords
        (replaceAmp (stripParens (pyLower s)))))))) ∧
    ytTitleTokens "a (b)" = ["a", "b"] ∧
    spec_normalize (stripParens "a (b)") = ["a"] :=
  ⟨fun _ => rfl, fun _ => rfl, fun _ => rfl, by decide, by decide⟩

/-- C9: when every configured provider is recognized and every lookup
returns zero results (or a caught failure, i.e. `None`) on every
deduplicated query variant, the search returns the explicit no-match signal,
which is a different outcome from the fatal configuration case. -/
theorem C9_no_match (lookup : String → String → Option (List Song))
    (providers : List String) (search_by song_name : String)
    (filters : List (Option String)) (disable_sort : Bool)
    (yt_title : String) (sens : ℚ)
    (hne : providers ≠ [])
    (hknown : ∀ p ∈ providers, KNOWN_PROVIDERS.contains p = true)
    (hfalsy : ∀ p ∈ providers, ∀ q ∈ setDedup (searchByQueryNames search_by yt_title),
      lookup p q = none ∨ lookup p q = some []) :
    SEARCH_SONG lookup providers search_by song_name filters disable_sort yt_title sens =
      .ok .noMatch ∧
    SearchOutcome.noMatch ≠ SearchOutcome.fatalConfig := by
  constructor
  · unfold SEARCH_SONG
    dsimp only
    rw [collectVariants_falsy (setDedup (searchByQueryNames search_by yt_title))
      ([], [], 0) hknown (fun p hp q hq => hfalsy p hp q hq)]
    simp only [Bind.bind, Except.bind]
    have hlen : providers.length ≠ 0 := by
      intro h0
      exact hne (List.length_eq_zero.mp h0)
    rw [if_neg (by omega : ¬ (0 = providers.length))]
    rfl
  · simp

/-- Witness for C9 at a concrete configuration: one recognized provider that
always returns `None`. -/
theorem C9_no_match_witness :
    SEARCH_SONG (fun _ _ => none) ["itunes"] "s" "s" [] false "" 0 = .ok .noMatch :=
  (C9_no_match (fun _ _ => none) ["itunes"] "s" "s" [] false "" 0
    (by simp) (by decide) (fun p _ q _ => Or.inl rfl)).1

/-- C10: `filterSongs` unconditionally indexes positions 0 and 1 of its
filter list, so with a non-empty, non-`None` candidate list and fewer than
two filters (including the default empty list) it raises `IndexError`
instead of returning a partition; the aggregation helper with an empty
filter list never calls `filterSongs` and so never raises. -/
theorem C10_filter_index_error :
    (∀ (s : Song) (l : List Song) (filters : List (Option String)),
      filters.length < 2 →
      filterSongs (some (s :: l)) filters = .error .indexError) ∧
    (∀ (pd : Option (List Song)) (tbs rest : List Song),
      extend_to_be_sorted_and_rest pd tbs rest [] =
        .ok (tbs ++ pd.getD [], rest ++ pd.getD [])) :=
  ⟨fun _ _ _ h => filterSongs_short h,
   fun pd tbs rest => extend_no_filters pd tbs rest⟩

/-- Record used by the C10 witness. -/
def c10s : Song := ⟨"a", "b", "c", none, 1⟩

/-- Witness for C10: the declared default (the empty filter list) raises on
a singleton candidate list, while the aggregation helper with no filters
extends both pools without error. -/
theorem C10_filter_index_error_witness :
    filterSongs (some [c10s]) [] = .error .indexError ∧
    extend_to_be_sorted_and_rest (some [c10s]) [] [] [] = .ok ([c10s], [c10s]) := by
  constructor
  · exact C10_filter_index_error.1 c10s [] [] (by decide)
  · have := C10_filter_index_error.2 (some [c10s]) [] []
    simpa using this

end Ytmdl

namespace Ytmdl

/-- C1: every candidate surviving the relevance floor with a present
(non-empty after normalization) display-title hint carries
`weightedDist = 0.65·albumDist + 0.30·artistDist + 0.05·titleDist`; the
surviving candidates are sorted descending by the lexicographic key
`(weightedDist, albumDist, artistDist, titleDist)` (each later component
breaking ties in the previous), the sorted list being a permutation of the
surviving candidates; and with an empty hint every candidate has
`albumDist = artistDist = weightedDist = 0`. -/
theorem C1_ranker_weights_and_sort (song_name yt_title : String) (sens : ℚ)
    (songs : List Song) :
    (normalizeQueryStr yt_title ≠ "" →
      ∀ x ∈ scoredCandidates song_name yt_title sens songs,
        x.weightedDist = x.albumDist * (65/100) + x.artistDist * (3/10) + x.dist * (5/100)) ∧
    (rankedScored song_name yt_title sens songs).Pairwise (fun a b => scoredLe a b = true) ∧
    (rankedScored song_name yt_title sens songs).Perm
      (scoredCandidates song_name yt_title sens songs) ∧
    (normalizeQueryStr yt_title = "" →
      ∀ x ∈ scoredCandidates song_name yt_title sens songs,
        x.albumDist = 0 ∧ x.artistDist = 0 ∧ x.weightedDist = 0) := by
  refine ⟨?_, rankedScored_sorted song_name yt_title sens songs,
    rankedScored_perm song_name yt_title sens songs, ?_⟩
  · intro hne x hx
    obtain ⟨s, _, hsome⟩ := mem_scoredCandidates.mp hx
    rw [bne_iff_ne.mpr hne] at hsome
    exact scoreSong_weighted hsome
  · intro he x hx
    obtain ⟨s, _, hsome⟩ := mem_scoredCandidates.mp hx
    rw [show (normalizeQueryStr yt_title != "") = false by rw [he]; rfl] at hsome
    exact scoreSong_no_hint hsome

/-- Record used by the C1 witness. -/
def c1s : Song := ⟨"q", "a", "b", some "", 9⟩

/-- Scored tuple produced for `c1s` by the ranker on query "q" with hint
"q" and sensitivity 0. -/
def c1x : Scored := ⟨c1s, 1, 0, 0, 1/20⟩

theorem c1_scored_eval : scoredCandidates "q" "q" 0 [c1s] = [c1x] := by
  have hq : ytSongNameTokens "q" = ["q"] := by decide
  have ht : ytTitleTokens "q" = ["q"] := by decide
  have hh : (normalizeQueryStr "q" != "") = true := by decide
  have hpq : providerFieldTokens "q" = ["q"] := by decide
  have hpa : providerFieldTokens "a" = ["a"] := by decide
  have hpb : providerFieldTokens "b" = ["b"] := by decide
  have hiq : ((["q"].toFinset : Finset String) ∩ ["q"].toFinset).card = 1 := by decide
  have huq : ((["q"].toFinset : Finset String) ∪ ["q"].toFinset).card = 1 := by decide
  have hjq : compute_jaccard ["q"] ["q"] = 1 := by
    simp [compute_jaccard, jaccardSets, hiq, huq]
  have hia : ((["q"].toFinset : Finset String) ∩ ["a"].toFinset).card = 0 := by decide
  have hua : ((["q"].toFinset : Finset String) ∪ ["a"].toFinset).card = 2 := by decide
  have hja : compute_jaccard ["q"] ["a"] = 0 := by
    simp [compute_jaccard, jaccardSets, hia, hua]
  have hib : ((["q"].toFinset : Finset String) ∩
      ((["b"].toFinset \ ["q"].toFinset) \ ["a"].toFinset)).card = 0 := by decide
  have hub : ((["q"].toFinset : Finset String) ∪
      ((["b"].toFinset \ ["q"].toFinset) \ ["a"].toFinset)).card = 2 := by decide
  have hjb : jaccardSets (["q"].toFinset : Finset String)
      ((["b"].toFinset \ ["q"].toFinset) \ ["a"].toFinset) = 0 := by
    simp [jaccardSets, hib, hub]
  have hib2 : (({"q"} : Finset String) ∩ {"b"}).card = 0 := by decide
  have hub2 : (({"q"} : Finset String) ∪ {"b"}).card = 2 := by decide
  have hjb2 : jaccardSets ({"q"} : Finset String) {"b"} = 0 := by
    simp [jaccardSets, hib2, hub2]
  have hsc : scoredCandidates "q" "q" 0 [c1s] = [c1x] := by
    simp [scoredCandidates, scoreSong, hq, ht, hh, hpq, hpa, hpb, hjq, hja, hjb, hjb2,
      c1s, c1x, zero_le_one]
    norm_num
  exact hsc

/-- Witness for C1: the concrete surviving candidate for query "q", hint
"q", sensitivity 0 satisfies the weighted-distance formula. -/
theorem C1_ranker_weights_and_sort_witness :
    c1x ∈ scoredCandidates "q" "q" 0 [c1s] ∧
    c1x.weightedDist = c1x.albumDist * (65/100) + c1x.artistDist * (3/10) + c1x.dist * (5/100) := by
  have hmem : c1x ∈ scoredCandidates "q" "q" 0 [c1s] := by
    rw [c1_scored_eval]
    exact List.mem_singleton.mpr rfl
  exact ⟨hmem, (C1_ranker_weights_and_sort "q" "q" 0 [c1s]).1 (by decide) c1x hmem⟩

end Ytmdl

namespace Ytmdl

theorem titleScore_congr (song_name : String) {u v : Song}
    (h : u.track_name = v.track_name) :
    titleScore song_name u = titleScore song_name v := by
  unfold titleScore
  rw [h]

/-- C2: (absence) a candidate whose title Jaccard score against the up-to-5
leading tokens of the normalized query is strictly below the configured
sensitivity appears nowhere in the ranked output — no output entry carries
it, with or without its release date truncated — regardless of its other
fields; (retention) a candidate from the input list whose score is at least
the sensitivity is retained: some output entry carries it (possibly with
truncated release date). -/
theorem C2_relevance_floor (song_name yt_title : String) (sens : ℚ)
    (songs : List Song) (s : Song) (out : List RankedEntry)
    (hok : search_tokens song_name songs yt_title sens = .ok out) :
    (titleScore song_name s < sens →
      ∀ e ∈ out, e.song ≠ s ∧ e.song ≠ truncSong s) ∧
    (s ∈ songs → sens ≤ titleScore song_name s →
      ∃ e ∈ out, e.song = s ∨ e.song = truncSong s) := by
  obtain ⟨mid, hpro, hfin⟩ := search_tokens_ok hok
  rw [finalizeRanked] at hfin
  obtain ⟨hforall, hexists⟩ := finalizeAux_ok_mem hfin
  have hmidmem : ∀ x : Scored,
      x ∈ mid ↔ x ∈ scoredCandidates song_name yt_title sens songs := by
    intro x
    rw [(promote_perm _ _ hpro).mem_iff,
      (rankedScored_perm song_name yt_title sens songs).mem_iff]
  constructor
  · intro hlt e he
    obtain ⟨x, hx, hshape⟩ := hforall e he
    obtain ⟨s1, _, hsome⟩ := mem_scoredCandidates.mp ((hmidmem x).mp hx)
    obtain ⟨hxsong, _, hscore⟩ := scoreSong_eq_some hsome
    have hneq : ∀ u : Song, u.track_name = s1.track_name →
        u ≠ s ∧ u ≠ truncSong s := by
      intro u hu
      have hus : sens ≤ titleScore song_name u := by
        rw [titleScore_congr song_name hu]
        exact hscore
      constructor
      · rintro rfl
        exact absurd hlt (not_lt.mpr hus)
      · rintro rfl
        have : titleScore song_name (truncSong s) = titleScore song_name s :=
          titleScore_congr song_name (truncSong_track_name s)
        rw [this] at hus
        exact absurd hlt (not_lt.mpr hus)
    rcases hshape with rfl | rfl
    · exact hneq x.song (by rw [hxsong])
    · exact hneq (truncSong x.song) (by rw [truncSong_track_name, hxsong])
  · intro hsmem hle
    have hle1 : sens ≤ compute_jaccard (ytSongNameTokens song_name)
        (providerFieldTokens s.track_name) := hle
    have hsome0 := @scoreSong_isSome_of_le (ytSongNameTokens song_name)
      (ytTitleTokens yt_title) (normalizeQueryStr yt_title != "") sens s hle1
    cases hsome : scoreSong (ytSongNameTokens song_name) (ytTitleTokens yt_title)
        (normalizeQueryStr yt_title != "") sens s with
    | none => rw [hsome] at hsome0; simp at hsome0
    | some x =>
      have hxsong : x.song = s := (scoreSong_eq_some hsome).1
      have hxmem : x ∈ mid :=
        (hmidmem x).mpr (mem_scoredCandidates.mpr ⟨s, hsmem, hsome⟩)
      obtain ⟨e, he, hshape⟩ := hexists x hxmem
      refine ⟨e, he, ?_⟩
      rcases hshape with rfl | rfl
      · exact Or.inl hxsong
      · exact Or.inr (by rw [RankedEntry.song, hxsong])

/-- Record used by the C2 witness. -/
def c2s : Song := ⟨"x", "", "", some "", 5⟩

theorem c2_eval : search_tokens "x" [c2s] "" 0 = .ok [.scored ⟨c2s, 1, 0, 0, 0⟩] := by
  have hq : ytSongNameTokens "x" = ["x"] := by decide
  have ht : ytTitleTokens "" = [] := by decide
  have hh : (normalizeQueryStr "" != "") = false := by decide
  have hp : providerFieldTokens "x" = ["x"] := by decide
  have hi : ((["x"].toFinset : Finset String) ∩ ["x"].toFinset).card = 1 := by decide
  have hu : ((["x"].toFinset : Finset String) ∪ ["x"].toFinset).card = 1 := by decide
  have hj : compute_jaccard ["x"] ["x"] = 1 := by
    simp [compute_jaccard, jaccardSets, hi, hu]
  have hsc : scoredCandidates "x" "" 0 [c2s] = [⟨c2s, 1, 0, 0, 0⟩] := by
    simp [scoredCandidates, scoreSong, hq, ht, hh, hp, hj, c2s, zero_le_one]
  have hsort : rankedScored "x" "" 0 [c2s] = [⟨c2s, 1, 0, 0, 0⟩] := by
    simp [rankedScored, hsc]
  have hpro : promote [(⟨c2s, 1, 0, 0, 0⟩ : Scored)] = .ok [⟨c2s, 1, 0, 0, 0⟩] := by
    simp [promote, promoteAux]
  have hfin : finalizeRanked [(⟨c2s, 1, 0, 0, 0⟩ : Scored)] =
      .ok [.scored ⟨c2s, 1, 0, 0, 0⟩] := by
    simp [finalizeRanked, finalizeAux, entryAt, hasDate, c2s, Bind.bind, Except.bind,
      pure, Except.pure]
  simp [search_tokens, hsort, hpro, hfin, Bind.bind, Except.bind]

/-- Witness for C2: the concrete retained candidate (score 1 against
sensitivity 0) is carried by the single output entry. -/
theorem C2_relevance_floor_witness :
    (RankedEntry.scored ⟨c2s, 1, 0, 0, 0⟩).song = c2s ∨
      (RankedEntry.scored ⟨c2s, 1, 0, 0, 0⟩).song = truncSong c2s := by
  have hscore : (0 : ℚ) ≤ titleScore "x" c2s := by
    have hq : ytSongNameTokens "x" = ["x"] := by decide
    have hp : providerFieldTokens "x" = ["x"] := by decide
    have hi : ((["x"].toFinset : Finset String) ∩ ["x"].toFinset).card = 1 := by decide
    have hu : ((["x"].toFinset : Finset String) ∪ ["x"].toFinset).card = 1 := by decide
    have : titleScore "x" c2s = 1 := by
      unfold titleScore
      rw [hq, show providerFieldTokens c2s.track_name = ["x"] from hp]
      simp [compute_jaccard, jaccardSets, hi, hu]
    rw [this]
    norm_num
  obtain ⟨e, he, hor⟩ := (C2_relevance_floor "x" "" 0 [c2s] c2s
    [.scored ⟨c2s, 1, 0, 0, 0⟩] c2_eval).2 (List.mem_singleton.mpr rfl) hscore
  have : e = .scored ⟨c2s, 1, 0, 0, 0⟩ := List.mem_singleton.mp he
  rw [this] at hor
  exact hor

end Ytmdl

namespace Ytmdl

/-- Candidate with an empty release date, top-ranked after sorting in the C3
counterexample. -/
def c3A : Song := ⟨"x", "", "", some "", 1⟩

/-- Second-ranked candidate with release date "2001-05-01" in the C3
counterexample. -/
def c3B : Song := ⟨"x", "", "", some "2001-05-01", 2⟩

/-- Third-ranked candidate with the earlier release date "1999-01-01" in the
C3 counterexample. -/
def c3C : Song := ⟨"x", "", "", some "1999-01-01", 3⟩

/-- C3 counterexample: after sorting, the top-ranked candidate `c3A` has an
empty release date and the second candidate `c3B` has release date
"2001-05-01" with `weightedDist` (0) within the 70%-of-top threshold and
inside the first-10 window — yet the first position of the ranked output is
the record of `c3C`, not of `c3B`: after `c3B` is promoted at step 1, the
scan continues and the later in-window entry `c3C`, whose date parses
earlier, displaces it at step 2. -/
theorem C3_counterexample :
    rankedScored "x" "" 0 [c3A, c3B, c3C] =
      [⟨c3A, 1, 0, 0, 0⟩, ⟨c3B, 1, 0, 0, 0⟩, ⟨c3C, 1, 0, 0, 0⟩] ∧
    hasDate c3A = false ∧ hasDate c3B = true ∧
    search_tokens "x" [c3A, c3B, c3C] "" 0 =
      .ok [.record c3C, .record c3A, .record c3B] ∧
    c3C ≠ c3B := by
  have hq : ytSongNameTokens "x" = ["x"] := by decide
  have ht : ytTitleTokens "" = [] := by decide
  have hh : (normalizeQueryStr "" != "") = false := by decide
  have hp : providerFieldTokens "x" = ["x"] := by decide
  have hi : ((["x"].toFinset : Finset String) ∩ ["x"].toFinset).card = 1 := by decide
  have hu : ((["x"].toFinset : Finset String) ∪ ["x"].toFinset).card = 1 := by decide
  have hj : compute_jaccard ["x"] ["x"] = 1 := by
    simp [compute_jaccard, jaccardSets, hi, hu]
  have hsc : scoredCandidates "x" "" 0 [c3A, c3B, c3C] =
      [⟨c3A, 1, 0, 0, 0⟩, ⟨c3B, 1, 0, 0, 0⟩, ⟨c3C, 1, 0, 0, 0⟩] := by
    simp [scoredCandidates, scoreSong, hq, ht, hh, hp, hj, c3A, c3B, c3C, zero_le_one]
  have hsorted : (([⟨c3A, 1, 0, 0, 0⟩, ⟨c3B, 1, 0, 0, 0⟩, ⟨c3C, 1, 0, 0, 0⟩] :
      List Scored).Pairwise (fun a b => scoredLe a b = true)) := by
    simp [List.pairwise_cons, scoredLe, rankKey, Prod.Lex.le_iff]
  have hsort : rankedScored "x" "" 0 [c3A, c3B, c3C] =
      [⟨c3A, 1, 0, 0, 0⟩, ⟨c3B, 1, 0, 0, 0⟩, ⟨c3C, 1, 0, 0, 0⟩] := by
    rw [rankedScored, hsc]
    exact List.mergeSort_of_sorted hsorted
  have hd1 : pyParseReleaseDate "2001-05-01" = some 20010501 := by decide
  have hd2 : pyParseReleaseDate "1999-01-01" = some 19990101 := by decide
  have hstep1 : promoteAux [⟨c3A, 1, 0, 0, 0⟩, ⟨c3B, 1, 0, 0, 0⟩, ⟨c3C, 1, 0, 0, 0⟩] 0 1 =
      promoteAux [⟨c3B, 1, 0, 0, 0⟩, ⟨c3A, 1, 0, 0, 0⟩, ⟨c3C, 1, 0, 0, 0⟩] 0 2 := by
    rw [promoteAux]
    norm_num [hasDate, swapTop, c3A, c3B, c3C]
  have hstep2 : promoteAux [⟨c3B, 1, 0, 0, 0⟩, ⟨c3A, 1, 0, 0, 0⟩, ⟨c3C, 1, 0, 0, 0⟩] 0 2 =
      promoteAux [⟨c3C, 1, 0, 0, 0⟩, ⟨c3A, 1, 0, 0, 0⟩, ⟨c3B, 1, 0, 0, 0⟩] 0 3 := by
    rw [promoteAux]
    norm_num [hasDate, swapTop, hd1, hd2, c3A, c3B, c3C]
    intro h1 h2
    exact absurd (h1 (by decide)) (by decide)
  have hstep3 : promoteAux [⟨c3C, 1, 0, 0, 0⟩, ⟨c3A, 1, 0, 0, 0⟩, ⟨c3B, 1, 0, 0, 0⟩] 0 3 =
      .ok [⟨c3C, 1, 0, 0, 0⟩, ⟨c3A, 1, 0, 0, 0⟩, ⟨c3B, 1, 0, 0, 0⟩] := by
    rw [promoteAux]
    norm_num
  have hpro : promote [⟨c3A, 1, 0, 0, 0⟩, ⟨c3B, 1, 0, 0, 0⟩, ⟨c3C, 1, 0, 0, 0⟩] =
      .ok [⟨c3C, 1, 0, 0, 0⟩, ⟨c3A, 1, 0, 0, 0⟩, ⟨c3B, 1, 0, 0, 0⟩] := by
    rw [promote]
    have h0 : (⟨c3A, 1, 0, 0, 0⟩ : Scored).weightedDist * (7/10) = 0 := by norm_num
    rw [h0, hstep1, hstep2, hstep3]
  have htr0 : takeBeforeT "" = "" := by decide
  have htr1 : takeBeforeT "1999-01-01" = "1999-01-01" := by decide
  have htr2 : takeBeforeT "2001-05-01" = "2001-05-01" := by decide
  have hfin : finalizeRanked [⟨c3C, 1, 0, 0, 0⟩, ⟨c3A, 1, 0, 0, 0⟩, ⟨c3B, 1, 0, 0, 0⟩] =
      .ok [.record c3C, .record c3A, .record c3B] := by
    simp [finalizeRanked, finalizeAux, entryAt, hasDate, c3A, c3B, c3C,
      htr0, htr1, htr2, Bind.bind, Except.bind, pure, Except.pure]
  refine ⟨hsort, by decide, by decide, ?_, by decide⟩
  simp [search_tokens, hsort, hpro, hfin, Bind.bind, Except.bind]

/-- C3 amended: when the top entry after sorting has no usable release date,
the promotion scan recomputes the threshold from the current entry, so a
second candidate with any non-negative weighted distance passes it and is
swapped into first position at its scan step — with exactly two surviving
candidates it therefore ends first; the scan stops at the first entry whose
weighted distance falls below the (recomputed) threshold, and iterations at
index 10 or beyond never change the list. A promoted candidate may later be
displaced again by a further in-window entry with an earlier parseable date,
as the counterexample shows. -/
theorem C3_amended (A B : Scored)
    (hA : hasDate A.song = false) (_hB : hasDate B.song = true)
    (hw : 0 ≤ B.weightedDist) :
    promote [A, B] = .ok [B, A] ∧
    (∀ (res : List Scored) (thr : ℚ) (i : Nat), 10 ≤ i →
      promoteAux res thr i = .ok res) ∧
    (∀ (res : List Scored) (thr : ℚ) (i : Nat), i < 10 → i < res.length →
      (res.getD i default).weightedDist <
        (if hasDate (res.getD 0 default).song then thr
          else (res.getD i default).weightedDist * (7/10)) →
      promoteAux res thr i = .ok res) := by
  refine ⟨?_, ?_, ?_⟩
  · show promoteAux [A, B] (A.weightedDist * (7/10)) 1 = .ok [B, A]
    rw [promoteAux]
    rw [dif_pos (by constructor <;> simp)]
    dsimp only
    simp only [List.getD_cons_zero, List.getD_cons_succ, hA, Bool.false_eq_true, if_false]
    rw [if_neg (not_lt.mpr (mul_le_of_le_one_right hw (by norm_num)))]
    rw [if_neg (by simp [hA])]
    rw [if_pos (by simp [hA])]
    have hswap : swapTop [A, B] 1 = [B, A] := by
      simp [swapTop]
    rw [hswap, promoteAux]
    rw [dif_neg (by simp)]
  · intro res thr i h10
    rw [promoteAux]
    rw [dif_neg (by omega)]
  · intro res thr i h1 h2 hlt
    rw [promoteAux]
    rw [dif_pos ⟨h1, h2⟩]
    dsimp only
    rw [if_pos hlt]

/-- Scored tuple with unusable release date for the C3 amended witness. -/
def c3wA : Scored := ⟨⟨"t", "", "", some "", 1⟩, 0, 0, 0, 0⟩

/-- Scored tuple with release date for the C3 amended witness. -/
def c3wB : Scored := ⟨⟨"t", "", "", some "2001-05-01", 2⟩, 0, 0, 0, 0⟩

/-- Witness for the amended C3 at a concrete two-candidate list: the second
candidate is promoted to first. -/
theorem C3_amended_witness : promote [c3wA, c3wB] = .ok [c3wB, c3wA] :=
  (C3_amended c3wA c3wB (by decide) (by decide) (le_refl 0)).1

end Ytmdl

namespace Ytmdl

/-- Candidate with unusable (empty) release date used in the C4
counterexample. -/
def c4S : Song := ⟨"x", "", "", some "", 5⟩

/-- C4 counterexample: with a single surviving candidate whose release date
is empty, the final pass leaves the first (and only) entry as the full
scored tuple — it is not a bare CandidateRecord, so the numeric scoring
tuples are not discarded for every entry. -/
theorem C4_counterexample :
    search_tokens "x" [c4S] "" 0 = .ok [.scored ⟨c4S, 1, 0, 0, 0⟩] ∧
    RankedEntry.isRecord (.scored ⟨c4S, 1, 0, 0, 0⟩) = false := by
  constructor
  · have hq : ytSongNameTokens "x" = ["x"] := by decide
    have ht : ytTitleTokens "" = [] := by decide
    have hh : (normalizeQueryStr "" != "") = false := by decide
    have hp : providerFieldTokens "x" = ["x"] := by decide
    have hi : ((["x"].toFinset : Finset String) ∩ ["x"].toFinset).card = 1 := by decide
    have hu : ((["x"].toFinset : Finset String) ∪ ["x"].toFinset).card = 1 := by decide
    have hj : compute_jaccard ["x"] ["x"] = 1 := by
      simp [compute_jaccard, jaccardSets, hi, hu]
    have hsc : scoredCandidates "x" "" 0 [c4S] = [⟨c4S, 1, 0, 0, 0⟩] := by
      simp [scoredCandidates, scoreSong, hq, ht, hh, hp, hj, c4S, zero_le_one]
    have hsort : rankedScored "x" "" 0 [c4S] = [⟨c4S, 1, 0, 0, 0⟩] := by
      simp [rankedScored, hsc]
    have hpro : promote [(⟨c4S, 1, 0, 0, 0⟩ : Scored)] = .ok [⟨c4S, 1, 0, 0, 0⟩] := by
      simp [promote, promoteAux]
    have hfin : finalizeRanked [(⟨c4S, 1, 0, 0, 0⟩ : Scored)] =
        .ok [.scored ⟨c4S, 1, 0, 0, 0⟩] := by
      simp [finalizeRanked, finalizeAux, entryAt, hasDate, c4S, Bind.bind, Except.bind,
        pure, Except.pure]
    simp [search_tokens, hsort, hpro, hfin, Bind.bind, Except.bind]
  · rfl

/-- C4 amended: the final pass keeps the list length; every entry becomes
the bare CandidateRecord with its release date truncated to the part before
the `T` separator, except the very first entry when its release date is
unusable — that entry is left entirely untouched as the scored tuple, its
numeric scores not discarded and its date not truncated. -/
theorem C4_amended (res : List Scored) (out : List RankedEntry)
    (h : finalizeRanked res = .ok out) :
    out.length = res.length ∧
    ∀ k, k < res.length →
      (k = 0 ∧ hasDate (res.getD 0 default).song = false ∧
        out.getD 0 default = .scored (res.getD 0 default)) ∨
      out.getD k default = .record (truncSong (res.getD k default).song) := by
  rw [finalizeRanked] at h
  obtain ⟨hlen, hidx⟩ := finalizeAux_ok_getD h
  refine ⟨hlen, ?_⟩
  intro k hk
  have hE := hidx k hk
  rw [Nat.zero_add] at hE
  rcases entryAt_ok hE with ⟨hk0, hdate, heq⟩ | heq
  · subst hk0
    exact Or.inl ⟨rfl, hdate, heq⟩
  · exact Or.inr heq

/-- Candidate with a usable release date used in the C4 amended witness. -/
def c4W : Song := ⟨"x", "", "", some "2001-05-01", 5⟩

theorem c4_fin_eval : finalizeRanked [(⟨c4W, 1, 0, 0, 0⟩ : Scored)] = .ok [.record c4W] := by
  have htr : takeBeforeT "2001-05-01" = "2001-05-01" := by decide
  simp [finalizeRanked, finalizeAux, entryAt, hasDate, c4W, htr, Bind.bind, Except.bind,
    pure, Except.pure]

/-- Witness for the amended C4: with a usable date on the single entry, the
first output position holds the bare record with truncated date. -/
theorem C4_amended_witness :
    (0 = 0 ∧ hasDate (([(⟨c4W, 1, 0, 0, 0⟩ : Scored)]).getD 0 default).song = false ∧
      ([RankedEntry.record c4W] : List RankedEntry).getD 0 default =
        .scored (([(⟨c4W, 1, 0, 0, 0⟩ : Scored)]).getD 0 default)) ∨
    ([RankedEntry.record c4W] : List RankedEntry).getD 0 default =
      .record (truncSong (([(⟨c4W, 1, 0, 0, 0⟩ : Scored)]).getD 0 default).song) :=
  (C4_amended [⟨c4W, 1, 0, 0, 0⟩] [.record c4W] c4_fin_eval).2 0 (by decide)

end Ytmdl
